import Mathlib

set_option maxHeartbeats 1000000

/-!
Verification of the reduce-window legalization core
(tensorflow/compiler/mlir/lite/stablehlo/transforms/legalize_hlo_conversions/reduce_window.cc).

The development shallowly embeds the data model (window descriptors, layouts,
the relevant MLIR value graph) and the three rewrite entry points
(RelayoutReduceWindow, LegalizeReduceWindowMax, LegalizeAvgPool) as executable
Lean functions, and proves the stated properties about them.

Helper code that the file consumes from headers outside the extracted source
(the ReduceWindowView accessors, Layout::GetPermForReLayout, GuessLayout,
IsSamePaddingOnDim, MatchBinaryReduceFunction) is either modelled from the
specification (marked in each doc comment) or abstracted as an explicit
function parameter of the embedding, so all theorems about the in-source
logic are parametric in those externals.

Numeric conventions: dimension attributes are unbounded integers (int64 values
that the claims never push to overflow); the one int32 narrowing in the source
(the average-pool attribute construction) is modelled exactly by `toI32`;
exact float constants (zero, one, the window size) are modelled by rationals
with exact equality, matching the exact comparisons `isZero` and
`isExactlyValue` used by the source.
-/

/-- Per-dimension padding pair (lo, hi). -/
structure DimPadding where
  lo : Int
  hi : Int
deriving DecidableEq, Repr

/-- A padding is trivial iff both lo and hi are zero. -/
def DimPadding.Trivial (p : DimPadding) : Bool := p.lo == 0 && p.hi == 0

/-- Modelled from the spec: WindowDescriptor / ReduceWindowView (declared in
reduce_window_util.h, which is not under src/) — a read-only view over the raw
window attributes of a reduce-window node.  All five sequences have length
exactly `rank`. -/
structure ReduceWindowView where
  windowDims : List Int
  windowStrides : List Int
  baseDilations : List Int
  windowDilations : List Int
  paddings : List DimPadding
deriving DecidableEq, Repr

/-- Modelled from the spec: the rank is the number of dimensions the window spans
(every attribute sequence has this length). -/
def ReduceWindowView.rank (v : ReduceWindowView) : Nat := v.windowDims.length

/-- Modelled from the spec: `window_size` is the product of the window dimensions. -/
def ReduceWindowView.windowSize (v : ReduceWindowView) : Int := v.windowDims.prod

/-- Modelled from the spec: Layout (declared in op_util_common.h, not under src/)
assigns semantic roles to physical dimension indices: `specialDim1` is the batch
axis, `specialDim2` the channel axis, `spatials` the ordered spatial axes.
Two layouts are equal iff all three components agree. -/
structure Layout where
  specialDim1 : Int
  specialDim2 : Int
  spatials : List Int
deriving DecidableEq, Repr

/-- The rank of a layout: one batch axis, one channel axis, and the spatial axes. -/
def Layout.rank (l : Layout) : Nat := l.spatials.length + 2

/-- Builds a rank-`n` integer vector keyed by the roles of layout `l`: position
`l.specialDim1` receives `b`, position `l.specialDim2` receives `c`, and the
position holding the k-th spatial axis of `l` receives `ss[k]`. -/
def roleBuild (l : Layout) (n : Nat) (b c : Int) (ss : List Int) : List Int :=
  (List.range n).map fun (d : Nat) =>
    if l.specialDim1 = (d : Int) then b
    else if l.specialDim2 = (d : Int) then c
    else ss.getD (l.spatials.indexOf (d : Int)) 0

/-- Modelled from the spec: `permutation_to(target)` (Layout::GetPermForReLayout,
not under src/) — for each target physical dimension d, the entry at d is the
physical dimension of `self` that carries the same semantic role as dimension d
carries in `target`. -/
def Layout.GetPermForReLayout (self target : Layout) : List Int :=
  roleBuild target self.rank self.specialDim1 self.specialDim2 self.spatials

/-- Permute, transcribed from the source: `res[i] = data[perm[i]]`. -/
def Permute (data perm : List Int) : List Int :=
  (List.range data.length).map fun i => data.getD ((perm.getD i 0).toNat) 0

/-- Modelled from the spec: `permute_shape(target, shape)` applies
`permutation_to(target)` to a shape vector. -/
def Layout.PermuteShape (self target : Layout) (shape : List Int) : List Int :=
  Permute shape (self.GetPermForReLayout target)

/-- TFLNativePoolingLayout, transcribed from the source: batch = 0,
channel = rank - 1, spatials = [1, ..., rank - 2] in order. -/
def TFLNativePoolingLayout (rank : Int) : Layout :=
  ⟨0, rank - 1, (List.range' 1 (rank - 2).toNat).map Int.ofNat⟩

/-- The identity permutation on n dimensions. -/
def identityPerm (n : Nat) : List Int := (List.range n).map Int.ofNat

/-- All physical dimensions mentioned by a layout, batch and channel first. -/
def Layout.dims (l : Layout) : List Int := l.specialDim1 :: l.specialDim2 :: l.spatials

/-- A layout is valid when its dimension assignment is a bijection onto
0 .. rank-1, i.e. its dimension list is a permutation of the identity. -/
def Layout.IsValid (l : Layout) : Prop := l.dims.Perm (identityPerm l.rank)

instance (l : Layout) : Decidable l.IsValid := by
  unfold Layout.IsValid
  exact List.decidablePerm _ _

/-- The shape of a tensor with batch size `bs`, channel size `cs` and spatial
sizes `ss`, stored according to layout `l`. -/
def layoutShape (l : Layout) (bs cs : Int) (ss : List Int) : List Int :=
  roleBuild l l.rank bs cs ss

/-- Ranked tensor type: shape plus whether the element type is a float type. -/
structure TensorTy where
  shape : List Int
  isFloat : Bool
deriving DecidableEq, Repr

/-- Number of elements of a ranked tensor type. -/
def TensorTy.numElements (t : TensorTy) : Int := t.shape.prod

/-- Dense constant element data (DenseElementsAttr): whether the elements are
floats (a DenseFPElementsAttr), whether the attribute is a splat, the
splat/first element value under exact-value semantics, and the element count. -/
structure FPConst where
  isFP : Bool
  isSplat : Bool
  val : Rat
  numElements : Int
deriving DecidableEq, Repr

/-- The reduction body of a reduce-window region, classified by the only shape
the patterns inspect: a single binary add over the two block arguments, a
single binary max, or anything else. -/
inductive BodyKind where
  | add
  | maxOp
  | other
deriving DecidableEq, Repr

/-- Modelled from the spec: MatchBinaryReduceFunction over AddOp (util.h, not
under src/) succeeds exactly when the reduction body is a single addition of
the two block arguments. -/
def MatchBinaryReduceFunctionAdd (b : BodyKind) : Bool := b == .add

/-- The acyclic value graph: each value is a graph input (block argument) or the
single result of its producing node.  Only the node kinds that the two patterns
inspect are distinguished; every constructor stores the MLIR result type. -/
inductive Value : Type where
  | blockArg (ty : TensorTy)
  | constant (data : FPConst) (ty : TensorTy)
  | transpose (operand : Value) (perm : List Int) (ty : TensorTy)
  | broadcastInDim (operand : Value) (ty : TensorTy)
  | reshape (operand : Value) (ty : TensorTy)
  | reduceWindow (inputs : List Value) (initValues : List Value) (numResults : Nat)
      (view : ReduceWindowView) (body : BodyKind) (ty : TensorTy)
  | div (lhs rhs : Value) (ty : TensorTy)
  | avgPool2D (input : Value) (filterH filterW : Int) (padding : String)
      (strideH strideW : Int) (faf : String) (ty : TensorTy)
  | otherOp (ty : TensorTy)
deriving Repr

/-- The type of a value (every producer stores its result type). -/
def Value.ty : Value → TensorTy
  | .blockArg t => t
  | .constant _ t => t
  | .transpose _ _ t => t
  | .broadcastInDim _ t => t
  | .reshape _ t => t
  | .reduceWindow _ _ _ _ _ t => t
  | .div _ _ t => t
  | .avgPool2D _ _ _ _ _ _ _ t => t
  | .otherOp t => t

/-- RecursivelyWalkUp over transpose producers: repeatedly replace the value by
its producer's first operand while the producer is a transpose. -/
def walkUpTranspose : Value → Value
  | .transpose operand _ _ => walkUpTranspose operand
  | v => v

/-- RecursivelyWalkUp over broadcast-in-dim and transpose producers. -/
def walkUpBroadcastTranspose : Value → Value
  | .transpose operand _ _ => walkUpBroadcastTranspose operand
  | .broadcastInDim operand _ => walkUpBroadcastTranspose operand
  | v => v

/-- RecursivelyWalkUp over broadcast-in-dim, reshape and transpose producers. -/
def walkUpBroadcastReshapeTranspose : Value → Value
  | .transpose operand _ _ => walkUpBroadcastReshapeTranspose operand
  | .broadcastInDim operand _ => walkUpBroadcastReshapeTranspose operand
  | .reshape operand _ => walkUpBroadcastReshapeTranspose operand
  | v => v

/-- IsCstFloatZero, transcribed from the source: the value is produced by a
constant whose data is a single-element float attribute holding exactly zero. -/
def IsCstFloatZero : Value → Bool
  | .constant data _ => data.isFP && data.numElements == 1 && data.val == 0
  | _ => false

/-- The three size guards of GetInputAndInitIfValid, in source order: exactly
one result, at most one input, at most one init value. -/
def GetInputAndInitSizeChecks (inputs initValues : List Value) (numResults : Nat) : Bool :=
  numResults == 1 && decide (inputs.length ≤ 1) && decide (initValues.length ≤ 1)

/-- GetInputAndInitIfValid, transcribed from the source.  The source reads
`getInitValues().front()` and `getInputs().front()` after only the three size
guards; on an (operation-verifier-invalid) node with an empty list that read is
out of bounds, so this total embedding returns `none` for the empty lists. -/
def GetInputAndInitIfValid (inputs initValues : List Value) (numResults : Nat) :
    Option (Value × Value) :=
  if !GetInputAndInitSizeChecks inputs initValues numResults then none
  else
    match initValues.head? with
    | none => none
    | some initVal =>
      if !(initVal.ty.numElements == 1) then none
      else
        match inputs.head? with
        | none => none
        | some input => some (input, initVal)

/-- AreDilationsSupported, transcribed from the source: every base dilation and
window dilation equals one. -/
def AreDilationsSupported (v : ReduceWindowView) : Bool :=
  v.baseDilations.all (fun d => d == 1) && v.windowDilations.all (fun d => d == 1)

/-- IsRankSupported, transcribed from the source: the rank is four. -/
def IsRankSupported (v : ReduceWindowView) : Bool := v.rank == 4

/-- GetViewIfAttrsSupported, transcribed from the source, parametric in the
layout-guessing heuristic `gl` (ReduceWindowView::GuessLayout is not under
src/): reject on rank not four, any non-unit dilation, a failed layout guess,
or non-trivial padding on the guessed batch or channel dimension. -/
def GetViewIfAttrsSupported (gl : ReduceWindowView → Option Layout)
    (view : ReduceWindowView) : Option (ReduceWindowView × Layout) :=
  if !IsRankSupported view then none
  else if !AreDilationsSupported view then none
  else
    match gl view with
    | none => none
    | some layout =>
      let batch := layout.specialDim1
      if !(view.paddings.getD batch.toNat ⟨0, 0⟩).Trivial then none
      else
        let chan := layout.specialDim2
        if !(view.paddings.getD chan.toNat ⟨0, 0⟩).Trivial then none
        else some (view, layout)

/-- Modelled from the spec: a sample instance of the layout-guessing heuristic
(ReduceWindowView::GuessLayout is not under src/): deterministic, total,
returns no layout for any rank other than four; this instance guesses the
canonical channel-last layout. -/
def guessLayoutNHWC (v : ReduceWindowView) : Option Layout :=
  if v.rank == 4 then some (TFLNativePoolingLayout 4) else none

/-- Modelled from the spec: a second sample instance of the layout-guessing
heuristic, guessing the channel-second (NCHW) layout. -/
def guessLayoutNCHW (v : ReduceWindowView) : Option Layout :=
  if v.rank == 4 then some ⟨0, 1, [2, 3]⟩ else none

/-- Modelled from the spec: the same-padding relation (IsSamePaddingOnDim from
op_util_common is not under src/): the output size is the ceiling of the input
size divided by the stride, and the (lo, hi) amounts are exactly the standard
even split of the total padding.  The argument order (pad, out, in, stride)
follows the call site in the source.  All theorems over the padding classifier
are parametric in this relation; this instance is used by witnesses. -/
def IsSamePaddingOnDim (pad : DimPadding) (out_d in_d stride : Int) : Bool :=
  let total := pad.lo + pad.hi
  out_d == (in_d + stride - 1) / stride &&
    pad.lo == total / 2 && pad.hi == total - total / 2

/-- The spatial dimension indices the padding-classification loop visits:
`for (int i = 1; i < rank - 1; ++i)`. -/
def spatialIndices (rank : Nat) : List Nat := (List.range (rank - 2)).map (· + 1)

/-- The body of the padding-classification loop of LegalizeAvgPool, transcribed
from the source and parametric in the same-padding relation `sp`: trivial
padding keeps the running mode, non-trivial same padding switches it to SAME,
anything else fails the match. -/
def classifyPaddingGo (sp : DimPadding → Int → Int → Int → Bool)
    (view : ReduceWindowView) (inShape outShape : List Int) :
    List Nat → String → Option String
  | [], mode => some mode
  | i :: rest, mode =>
    let dimPad := view.paddings.getD i ⟨0, 0⟩
    if dimPad.Trivial then classifyPaddingGo sp view inShape outShape rest mode
    else if sp dimPad (outShape.getD i 0) (inShape.getD i 0) (view.windowStrides.getD i 0)
    then classifyPaddingGo sp view inShape outShape rest "SAME"
    else none

/-- The padding-classification loop of LegalizeAvgPool over the spatial
dimensions, starting from mode VALID. -/
def classifyPadding (sp : DimPadding → Int → Int → Int → Bool)
    (view : ReduceWindowView) (inShape outShape : List Int) : Option String :=
  classifyPaddingGo sp view inShape outShape (spatialIndices view.rank) "VALID"

/-- Exact int64-to-int32 narrowing (two's complement wrap-around), used by the
average-pool attribute construction in the source. -/
def toI32 (x : Int) : Int := (x + 2 ^ 31) % 2 ^ 32 - 2 ^ 31

/-- The result type of an mhlo transpose built from an operand and a
permutation: shape entry i is the operand shape entry perm[i]. -/
def transposeResultTy (t : TensorTy) (perm : List Int) : TensorTy :=
  ⟨Permute t.shape perm, t.isFloat⟩

/-- The division node a LegalizeAvgPool attempt is rooted at. -/
structure DivOp where
  lhs : Value
  rhs : Value
  ty : TensorTy
deriving Repr

/-- The reduce-window node a RelayoutReduceWindow attempt is rooted at:
inputs, init values, result count, attribute view, reduction body, and the
type of result zero. -/
structure RWNode where
  inputs : List Value
  initValues : List Value
  numResults : Nat
  view : ReduceWindowView
  body : BodyKind
  ty : TensorTy
deriving Repr

/-- The saved outermost transpose directly wrapping the division numerator
(operand and permutation), if any. -/
def finalTposeOf (v : Value) : Option (Value × List Int) :=
  match v with
  | .transpose operand perm _ => some (operand, perm)
  | _ => none

/-- Re-applies a saved outer transpose to the fused result, as
ReplaceWithAvgPool does. -/
def withFinalTpose (o : Option (Value × List Int)) (v : Value) : Value :=
  match o with
  | some (_, perm) => Value.transpose v perm (transposeResultTy v.ty perm)
  | none => v

/-- The out type ReplaceWithAvgPool selects: the saved transpose operand type
if present, the division result type otherwise. -/
def avgPoolOutTy (divOp : DivOp) (o : Option (Value × List Int)) : TensorTy :=
  match o with
  | some (operand, _) => operand.ty
  | none => divOp.ty

/-- ReplaceWithAvgPool, transcribed from the source: build one tfl.average_pool_2d
whose filter (h, w) and stride (h, w) are window dimensions 1 and 2 and window
strides 1 and 2 of the numerator view, narrowed to int32, with the classified
padding, and re-chain the saved outer transpose on its result. -/
def ReplaceWithAvgPool (divOp : DivOp) (rwLhsInput : Value) (lhsView : ReduceWindowView)
    (padding : String) (optFinalTpose : Option (Value × List Int)) : Value :=
  withFinalTpose optFinalTpose
    (Value.avgPool2D rwLhsInput
      (toI32 (lhsView.windowDims.getD 1 0)) (toI32 (lhsView.windowDims.getD 2 0))
      padding
      (toI32 (lhsView.windowStrides.getD 1 0)) (toI32 (lhsView.windowStrides.getD 2 0))
      "NONE" (avgPoolOutTy divOp optFinalTpose))

/-- Result of a LegalizeAvgPool attempt: a successful rewrite replacing the
division result by a value, a match failure carrying a diagnostic reason, or a
reasonless failure. -/
inductive AvgPoolMatch where
  | replaced (v : Value)
  | noMatch (reason : String)
  | failed
deriving Repr

/-- Case 2 of LegalizeAvgPool, transcribed from the source: the denominator,
after walking up broadcast/reshape/transpose producers, must be a reduce-window
that passes the support filter, is in the canonical layout, has an addition
body, a valid input/init pair with zero init, a splat-1.0 constant input after
walking up broadcast/transpose producers, and the same window configuration as
the numerator. -/
def avgPoolCase2 (gl : ReduceWindowView → Option Layout) (divOp : DivOp)
    (optFinalTpose : Option (Value × List Int)) (rwLhsInput : Value)
    (lhsView : ReduceWindowView) (tflPadding : String) : AvgPoolMatch :=
  match walkUpBroadcastReshapeTranspose divOp.rhs with
  | .reduceWindow rInputs rInits rNumResults rView rBody _ =>
    match GetViewIfAttrsSupported gl rView with
    | none => .noMatch "Rhs rw is not valid."
    | some (rwRhsView, rwRhsLayout) =>
      if rwRhsLayout ≠ TFLNativePoolingLayout (rwRhsLayout.rank : Int) then
        .noMatch "Rhs reduce window not tfl standard layout."
      else if !MatchBinaryReduceFunctionAdd rBody then
        .noMatch "Rhs rw body function is not an add op."
      else
        match GetInputAndInitIfValid rInputs rInits rNumResults with
        | none => .noMatch "Rhs reduce window has wrong number of inputs or init values."
        | some (rwRhsInput, rwRhsInitVal) =>
          if !IsCstFloatZero rwRhsInitVal then .noMatch "Rhs rw init vals is not zero."
          else
            match walkUpBroadcastTranspose rwRhsInput with
            | .constant d _ =>
              if d.isFP && d.isSplat && d.val == 1 then
                if lhsView.windowDims ≠ rwRhsView.windowDims ∨
                    lhsView.windowStrides ≠ rwRhsView.windowStrides ∨
                    lhsView.paddings ≠ rwRhsView.paddings then
                  .noMatch "Lhs rw and Rhs rw do not have the same config."
                else
                  .replaced (ReplaceWithAvgPool divOp rwLhsInput lhsView tflPadding optFinalTpose)
              else .noMatch "Rw rhs input is not splat of 1.0."
            | _ => .noMatch "Rw rhs input is not splat of 1.0."
  | _ => .noMatch "Rhs of div op is not a reduce window."

/-- The denominator dispatch of LegalizeAvgPool, transcribed from the source:
if the denominator, after walking up broadcast/transpose producers, is a float
constant, case 1 decides the attempt (non-splat fails, a splat must equal the
window size exactly and requires VALID padding); otherwise case 2 runs. -/
def legalizeAvgPoolAfterLhs (gl : ReduceWindowView → Option Layout) (divOp : DivOp)
    (optFinalTpose : Option (Value × List Int)) (rwLhsInput : Value)
    (lhsView : ReduceWindowView) (tflPadding : String) : AvgPoolMatch :=
  match walkUpBroadcastTranspose divOp.rhs with
  | .constant data _ =>
    if data.isFP then
      if !data.isSplat then .failed
      else if !(data.val == (lhsView.windowSize : Rat)) then
        .noMatch "Rhs splat const is not equal to window size."
      else if tflPadding ≠ "VALID" then
        .noMatch "Matching on rhs splat const where rw lhs has non-trivial padding."
      else .replaced (ReplaceWithAvgPool divOp rwLhsInput lhsView tflPadding optFinalTpose)
    else avgPoolCase2 gl divOp optFinalTpose rwLhsInput lhsView tflPadding
  | _ => avgPoolCase2 gl divOp optFinalTpose rwLhsInput lhsView tflPadding

/-- LegalizeAvgPool::matchAndRewrite, transcribed from the source and parametric
in the layout-guessing heuristic `gl` and the same-padding relation `sp`. -/
def legalizeAvgPool (gl : ReduceWindowView → Option Layout)
    (sp : DimPadding → Int → Int → Int → Bool) (divOp : DivOp) : AvgPoolMatch :=
  let optFinalTpose := finalTposeOf divOp.lhs
  match walkUpTranspose divOp.lhs with
  | .reduceWindow inputs inits numResults view body outTy =>
    match GetViewIfAttrsSupported gl view with
    | none => .noMatch "Lhs rw is not valid."
    | some (rwLhsView, rwLhsLayout) =>
      if rwLhsView.rank ≠ 4 then .noMatch "Not a 2d pooling operator."
      else if rwLhsLayout ≠ TFLNativePoolingLayout (rwLhsLayout.rank : Int) then
        .noMatch "Lhs reduce window not tfl standard layout."
      else
        match GetInputAndInitIfValid inputs inits numResults with
        | none => .noMatch "Lhs reduce window has wrong number of inputs or init values."
        | some (rwLhsInput, rwLhsInitVal) =>
          if !MatchBinaryReduceFunctionAdd body then
            .noMatch "Failed to match rw lhs binary func."
          else if !outTy.isFloat then
            .noMatch "Reduce window lhs most be float type."
          else if !IsCstFloatZero rwLhsInitVal then
            .noMatch "Reduce window lhs init value is not zero."
          else
            match classifyPadding sp rwLhsView rwLhsInput.ty.shape outTy.shape with
            | none => .noMatch "Padding is not same or valid."
            | some tflPadding =>
              legalizeAvgPoolAfterLhs gl divOp optFinalTpose rwLhsInput rwLhsView tflPadding
  | _ => .noMatch "Could not match lhs of div on reduce window."

/-- Result of a RelayoutReduceWindow attempt. -/
inductive RelayoutResult where
  | noMatch (reason : String)
  | rewritten (v : Value)
deriving Repr

/-- Groups a flat interleaved (lo, hi) integer list back into padding pairs,
inverting the flat (rank, 2) attribute layout the source builds. -/
def pairUp : List Int → List DimPadding
  | a :: b :: rest => ⟨a, b⟩ :: pairUp rest
  | _ => []

/-- RelayoutReduceWindow::matchAndRewrite, transcribed from the source: on a
supported, non-canonical reduce-window, permute the layout-sensitive
attributes by perm_in, transpose the input by perm_in, rebuild the node with
the permuted output shape and the same body, and transpose the result back by
perm_out. -/
def relayoutReduceWindow (gl : ReduceWindowView → Option Layout) (op : RWNode) :
    RelayoutResult :=
  match GetViewIfAttrsSupported gl op.view with
  | none => .noMatch "Reduce window attributes not supported."
  | some (view, layout) =>
    match GetInputAndInitIfValid op.inputs op.initValues op.numResults with
    | none => .noMatch "Reduce window has wrong number of inputs or init values."
    | some (input, initVal) =>
      let targetLayout := TFLNativePoolingLayout (view.rank : Int)
      if layout = targetLayout then
        .noMatch "Reduce window does not need layout change"
      else
        let permForInputs := layout.GetPermForReLayout targetLayout
        let paddings := view.paddings
        let newPaddingsFlat :=
          ((List.range paddings.length).map fun i =>
            let dimPad := paddings.getD (permForInputs.getD i 0).toNat ⟨0, 0⟩
            [dimPad.lo, dimPad.hi]).flatten
        let newWindowDims := Permute view.windowDims permForInputs
        let newWindowStrides := Permute view.windowStrides permForInputs
        let permForOutputs := targetLayout.GetPermForReLayout layout
        let newRwOutShape := layout.PermuteShape targetLayout op.ty.shape
        let newOutTy : TensorTy := ⟨newRwOutShape, op.ty.isFloat⟩
        let newInput := Value.transpose input permForInputs (transposeResultTy input.ty permForInputs)
        let newView : ReduceWindowView :=
          ⟨newWindowDims, newWindowStrides, view.baseDilations, view.windowDilations,
            pairUp newPaddingsFlat⟩
        let newRw := Value.reduceWindow [newInput] [initVal] 1 newView op.body newOutTy
        .rewritten (Value.transpose newRw permForOutputs (transposeResultTy newOutTy permForOutputs))

/-- Match outcome of a conversion pattern. -/
inductive LogicalResult where
  | success
  | failure
deriving DecidableEq, Repr

/-- LegalizeReduceWindowMax::matchAndRewrite, transcribed from the source: the
max-pool path is unimplemented and reports no match unconditionally. -/
def LegalizeReduceWindowMaxMatchAndRewrite (_op : RWNode) : LogicalResult :=
  .failure

/-- IsReduceWindowLegal, transcribed from the source: statically unknown legality. -/
def IsReduceWindowLegal (_op : RWNode) : Option Bool := none

/-- IsDivideLegal, transcribed from the source: statically unknown legality. -/
def IsDivideLegal (_op : DivOp) : Option Bool := none

/-- The dynamic-legality hooks a conversion target registers for the two node
kinds this file touches. -/
structure ConversionTarget where
  reduceWindowLegality : RWNode → Option Bool
  divLegality : DivOp → Option Bool

/-- PopulateLegalizeReduceWindowPatterns, transcribed from the source: registers
IsReduceWindowLegal for reduce-window nodes and IsDivideLegal for division
nodes. -/
def PopulateLegalizeReduceWindowPatterns : ConversionTarget :=
  ⟨IsReduceWindowLegal, IsDivideLegal⟩

/-! ### Concrete fixtures used by the witness theorems -/

/-- Scalar float tensor type. -/
def scalarF32 : TensorTy := ⟨[], true⟩

/-- A single-element float constant holding exactly zero (a pooling init value). -/
def zeroCst : Value := .constant ⟨true, true, 0, 1⟩ scalarF32

/-- A canonical-layout 3x3 / stride-2 sum window over NHWC with trivial padding. -/
def viewValid : ReduceWindowView :=
  ⟨[1, 3, 3, 1], [1, 2, 2, 1], [1, 1, 1, 1], [1, 1, 1, 1],
    [⟨0, 0⟩, ⟨0, 0⟩, ⟨0, 0⟩, ⟨0, 0⟩]⟩

/-- A graph input of shape 1x8x8x1. -/
def inputValid : Value := .blockArg ⟨[1, 8, 8, 1], true⟩

/-- The numerator reduce-window for the VALID-padding fixtures. -/
def rwValid : Value :=
  .reduceWindow [inputValid] [zeroCst] 1 viewValid .add ⟨[1, 3, 3, 1], true⟩

/-- Division of the sum window by the splat window-size constant 9.0. -/
def divC1 : DivOp :=
  ⟨rwValid, .constant ⟨true, true, 9, 1⟩ scalarF32, ⟨[1, 3, 3, 1], true⟩⟩

/-- Division of the sum window by a wrong splat constant 7.0. -/
def divWrongCst : DivOp :=
  ⟨rwValid, .constant ⟨true, true, 7, 1⟩ scalarF32, ⟨[1, 3, 3, 1], true⟩⟩

/-- A canonical-layout 3x3 / stride-1 sum window with SAME (1,1) spatial padding. -/
def viewSame : ReduceWindowView :=
  ⟨[1, 3, 3, 1], [1, 1, 1, 1], [1, 1, 1, 1], [1, 1, 1, 1],
    [⟨0, 0⟩, ⟨1, 1⟩, ⟨1, 1⟩, ⟨0, 0⟩]⟩

/-- The numerator reduce-window for the SAME-padding fixture. -/
def rwSame : Value :=
  .reduceWindow [inputValid] [zeroCst] 1 viewSame .add ⟨[1, 8, 8, 1], true⟩

/-- A splat constant of ones with the numerator input shape. -/
def onesCst : Value := .constant ⟨true, true, 1, 64⟩ ⟨[1, 8, 8, 1], true⟩

/-- The ones-window denominator with the same window configuration. -/
def rwOnes : Value :=
  .reduceWindow [onesCst] [zeroCst] 1 viewSame .add ⟨[1, 8, 8, 1], true⟩

/-- Division of the SAME-padding sum window by the ones window. -/
def divC2 : DivOp := ⟨rwSame, rwOnes, ⟨[1, 8, 8, 1], true⟩⟩

/-- A rank-3 window view (rejected by the support filter). -/
def viewRank3 : ReduceWindowView :=
  ⟨[1, 3, 3], [1, 1, 1], [1, 1, 1], [1, 1, 1], [⟨0, 0⟩, ⟨0, 0⟩, ⟨0, 0⟩]⟩

/-- The canonical VALID fixture as a RelayoutReduceWindow root. -/
def rwNodeValid : RWNode :=
  ⟨[inputValid], [zeroCst], 1, viewValid, .add, ⟨[1, 3, 3, 1], true⟩⟩

/-- An NCHW 3x3 / stride-2 sum window with trivial padding. -/
def viewNCHW : ReduceWindowView :=
  ⟨[1, 1, 3, 3], [1, 1, 2, 2], [1, 1, 1, 1], [1, 1, 1, 1],
    [⟨0, 0⟩, ⟨0, 0⟩, ⟨0, 0⟩, ⟨0, 0⟩]⟩

/-- A graph input of shape 1x1x8x8. -/
def inputNCHW : Value := .blockArg ⟨[1, 1, 8, 8], true⟩

/-- The NCHW fixture as a RelayoutReduceWindow root. -/
def rwNodeNCHW : RWNode :=
  ⟨[inputNCHW], [zeroCst], 1, viewNCHW, .add, ⟨[1, 1, 3, 3], true⟩⟩

/-- The NCHW layout of rank 4. -/
def layoutNCHW : Layout := ⟨0, 1, [2, 3]⟩

/-- The NHWC (canonical) layout of rank 4. -/
def layoutNHWC : Layout := ⟨0, 3, [1, 2]⟩

/-! ### General list helper lemmas -/

theorem getD_map_range {α : Type} (f : Nat → α) {n i : Nat} (d : α) (h : i < n) :
    ((List.range n).map f).getD i d = f i := by
  rw [List.getD_eq_getElem _ _ (by simpa using h)]
  simp

theorem length_map_range {α : Type} (f : Nat → α) (n : Nat) :
    ((List.range n).map f).length = n := by simp

/-! ### The support filter characterized -/

theorem getView_eq_some_iff (gl : ReduceWindowView → Option Layout)
    (v w : ReduceWindowView) (l : Layout) :
    GetViewIfAttrsSupported gl v = some (w, l) ↔
      (IsRankSupported v = true ∧ AreDilationsSupported v = true ∧ gl v = some l ∧ w = v ∧
        (v.paddings.getD l.specialDim1.toNat ⟨0, 0⟩).Trivial = true ∧
        (v.paddings.getD l.specialDim2.toNat ⟨0, 0⟩).Trivial = true) := by
  unfold GetViewIfAttrsSupported
  cases h1 : IsRankSupported v with
  | false => simp [h1]
  | true =>
    cases h2 : AreDilationsSupported v with
    | false => simp [h1, h2]
    | true =>
      rw [if_neg (by simp [h1]), if_neg (by simp [h2])]
      cases hgl : gl v with
      | none => simp [hgl]
      | some layout =>
        dsimp only
        cases h3 : (v.paddings.getD layout.specialDim1.toNat ⟨0, 0⟩).Trivial with
        | false =>
          rw [if_pos (by simp [h3])]
          constructor
          · intro h; cases h
          · rintro ⟨-, -, hl, rfl, h3', -⟩
            injection hl with hl'
            subst hl'
            rw [h3] at h3'
            cases h3'
        | true =>
          cases h4 : (v.paddings.getD layout.specialDim2.toNat ⟨0, 0⟩).Trivial with
          | false =>
            rw [if_neg (by simp [h3]), if_pos (by simp [h4])]
            constructor
            · intro h; cases h
            · rintro ⟨-, -, hl, rfl, -, h4'⟩
              injection hl with hl'
              subst hl'
              rw [h4] at h4'
              cases h4'
          | true =>
            rw [if_neg (by simp [h3]), if_neg (by simp [h4])]
            constructor
            · intro h
              injection h with h'
              injection h' with ha hb
              subst ha
              subst hb
              exact ⟨rfl, rfl, rfl, rfl, h3, h4⟩
            · rintro ⟨-, -, hl, rfl, -, -⟩
              injection hl with hl'
              subst hl'
              rfl

theorem getView_none_of_rank_ne (gl : ReduceWindowView → Option Layout)
    (v : ReduceWindowView) (h : v.rank ≠ 4) :
    GetViewIfAttrsSupported gl v = none := by
  have h1 : IsRankSupported v = false := by
    unfold IsRankSupported
    simpa using h
  unfold GetViewIfAttrsSupported
  simp [h1]

/-- Claim C4: the support filter returns a (descriptor, layout) pair iff the
rank is four, every base and window dilation is one, the layout guess
succeeds, and the guessed batch and channel dimensions both have trivial
padding; in every other case it returns none, in particular for any rank
other than four. -/
theorem claim_support_filter (gl : ReduceWindowView → Option Layout)
    (v : ReduceWindowView) :
    (∀ w l, GetViewIfAttrsSupported gl v = some (w, l) ↔
      (v.rank = 4 ∧ (∀ d ∈ v.baseDilations, d = 1) ∧ (∀ d ∈ v.windowDilations, d = 1) ∧
        gl v = some l ∧ w = v ∧
        (v.paddings.getD l.specialDim1.toNat ⟨0, 0⟩).Trivial = true ∧
        (v.paddings.getD l.specialDim2.toNat ⟨0, 0⟩).Trivial = true)) ∧
    (v.rank ≠ 4 → GetViewIfAttrsSupported gl v = none) := by
  constructor
  · intro w l
    rw [getView_eq_some_iff]
    unfold IsRankSupported AreDilationsSupported
    simp only [beq_iff_eq, Bool.and_eq_true, List.all_eq_true]
    tauto
  · exact getView_none_of_rank_ne gl v

/-- Witness for C4: the support filter rejects the rank-3 view and accepts the
canonical VALID fixture with the guessed layout. -/
theorem claim_support_filter_witness :
    GetViewIfAttrsSupported guessLayoutNHWC viewRank3 = none ∧
    GetViewIfAttrsSupported guessLayoutNHWC viewValid = some (viewValid, layoutNHWC) :=
  ⟨(claim_support_filter guessLayoutNHWC viewRank3).2 (by decide),
    ((claim_support_filter guessLayoutNHWC viewValid).1 viewValid layoutNHWC).mpr
      ⟨rfl, by decide, by decide, by decide, rfl, by decide, by decide⟩⟩

/-- Claim C9: the max-pool legalization pattern reports no match
unconditionally, and the registered legality hooks for reduce-window and
division nodes both return the unknown value, deferring to pattern
application. -/
theorem claim_maxpool_stub_and_unknown_legality :
    (∀ op : RWNode, LegalizeReduceWindowMaxMatchAndRewrite op = .failure) ∧
    (∀ op : RWNode, PopulateLegalizeReduceWindowPatterns.reduceWindowLegality op = none) ∧
    (∀ op : DivOp, PopulateLegalizeReduceWindowPatterns.divLegality op = none) :=
  ⟨fun _ => rfl, fun _ => rfl, fun _ => rfl⟩

/-- Claim C10: the three size guards of GetInputAndInitIfValid pass on a node
with an empty init-value list (where the front read of the source is out of
bounds), and under the additional precondition that both lists are non-empty
the embedded function is total and succeeds exactly when the guards pass and
the init value is a single-element tensor. -/
theorem claim_getInputAndInit_requires_nonempty :
    (GetInputAndInitSizeChecks [] [] 1 = true ∧ (([] : List Value).head? = none)) ∧
    (∀ (inputs inits : List Value) (n : Nat),
      inputs ≠ [] → inits ≠ [] →
      ∃ input initVal, inputs.head? = some input ∧ inits.head? = some initVal ∧
        (GetInputAndInitIfValid inputs inits n = some (input, initVal) ↔
          (GetInputAndInitSizeChecks inputs inits n = true ∧ initVal.ty.numElements = 1))) := by
  constructor
  · exact ⟨by decide, rfl⟩
  · intro inputs inits n hin hinit
    match inputs, inits with
    | input :: ins, iv :: ivs =>
      refine ⟨input, iv, rfl, rfl, ?_⟩
      unfold GetInputAndInitIfValid
      by_cases hc : GetInputAndInitSizeChecks (input :: ins) (iv :: ivs) n = true
      · by_cases hne : iv.ty.numElements = 1
        · simp [hc, hne]
        · simp [hc, hne]
      · simp only [Bool.not_eq_true] at hc
        simp [hc]

/-- Witness for C10: a well-formed single-input, single-init node. -/
theorem claim_getInputAndInit_requires_nonempty_witness :
    ∃ input initVal, ([inputValid] : List Value).head? = some input ∧
      ([zeroCst] : List Value).head? = some initVal ∧
      (GetInputAndInitIfValid [inputValid] [zeroCst] 1 = some (input, initVal) ↔
        (GetInputAndInitSizeChecks [inputValid] [zeroCst] 1 = true ∧
          initVal.ty.numElements = 1)) :=
  claim_getInputAndInit_requires_nonempty.2 [inputValid] [zeroCst] 1
    (List.cons_ne_nil _ _) (List.cons_ne_nil _ _)

/-! ### Relayout on canonical nodes (C6) -/

/-- Claim C6: for a reduce-window whose guessed layout already equals the
canonical target layout for its rank, RelayoutReduceWindow reports
non-applicable (some match-failure reason) and performs no rewrite, so running
the pattern to a fixpoint is idempotent on canonical nodes. -/
theorem claim_relayout_canonical_noop (gl : ReduceWindowView → Option Layout)
    (op : RWNode) (l : Layout)
    (hguess : gl op.view = some l)
    (hcanon : l = TFLNativePoolingLayout (op.view.rank : Int)) :
    ∃ r, relayoutReduceWindow gl op = .noMatch r := by
  unfold relayoutReduceWindow
  cases hv : GetViewIfAttrsSupported gl op.view with
  | none => exact ⟨_, rfl⟩
  | some p =>
    obtain ⟨w, l'⟩ := p
    rw [getView_eq_some_iff] at hv
    obtain ⟨-, -, hl, rfl, -, -⟩ := hv
    rw [hguess] at hl
    injection hl with hl'
    subst hl'
    dsimp only
    cases hii : GetInputAndInitIfValid op.inputs op.initValues op.numResults with
    | none => exact ⟨_, rfl⟩
    | some q =>
      obtain ⟨input, initVal⟩ := q
      dsimp only
      rw [if_pos hcanon]
      exact ⟨_, rfl⟩

/-- Witness for C6: the canonical VALID fixture is left unchanged. -/
theorem claim_relayout_canonical_noop_witness :
    ∃ r, relayoutReduceWindow guessLayoutNHWC rwNodeValid = .noMatch r :=
  claim_relayout_canonical_noop guessLayoutNHWC rwNodeValid
    (TFLNativePoolingLayout 4) rfl (by decide)

/-! ### The padding-classification loop characterized (C5) -/

theorem classifyPaddingGo_eq_none_iff (sp : DimPadding → Int → Int → Int → Bool)
    (view : ReduceWindowView) (inShape outShape : List Int) (idxs : List Nat)
    (mode : String) :
    classifyPaddingGo sp view inShape outShape idxs mode = none ↔
      ∃ i ∈ idxs, (view.paddings.getD i ⟨0, 0⟩).Trivial = false ∧
        sp (view.paddings.getD i ⟨0, 0⟩) (outShape.getD i 0) (inShape.getD i 0)
          (view.windowStrides.getD i 0) = false := by
  induction idxs generalizing mode with
  | nil => simp [classifyPaddingGo]
  | cons i rest ih =>
    unfold classifyPaddingGo
    cases ht : (view.paddings.getD i ⟨0, 0⟩).Trivial with
    | true =>
      rw [if_pos ht, ih]
      constructor
      · rintro ⟨j, hj, hPj⟩
        exact ⟨j, List.mem_cons_of_mem _ hj, hPj⟩
      · rintro ⟨j, hj, hPj⟩
        rcases List.mem_cons.mp hj with rfl | hj'
        · rw [ht] at hPj
          exact absurd hPj.1 (by decide)
        · exact ⟨j, hj', hPj⟩
    | false =>
      rw [if_neg (by simp only [ht]; decide)]
      cases hs : sp (view.paddings.getD i ⟨0, 0⟩) (outShape.getD i 0) (inShape.getD i 0)
          (view.windowStrides.getD i 0) with
      | true =>
        rw [if_pos rfl, ih]
        constructor
        · rintro ⟨j, hj, hPj⟩
          exact ⟨j, List.mem_cons_of_mem _ hj, hPj⟩
        · rintro ⟨j, hj, hPj⟩
          rcases List.mem_cons.mp hj with rfl | hj'
          · rw [hs] at hPj
            exact absurd hPj.2 (by decide)
          · exact ⟨j, hj', hPj⟩
      | false =>
        rw [if_neg (by decide)]
        constructor
        · intro _
          exact ⟨i, List.mem_cons_self i rest, ht, hs⟩
        · intro _
          rfl

theorem classifyPaddingGo_eq_some_iff (sp : DimPadding → Int → Int → Int → Bool)
    (view : ReduceWindowView) (inShape outShape : List Int) (idxs : List Nat)
    (mode m : String) :
    classifyPaddingGo sp view inShape outShape idxs mode = some m ↔
      ((∀ i ∈ idxs, (view.paddings.getD i ⟨0, 0⟩).Trivial = false →
          sp (view.paddings.getD i ⟨0, 0⟩) (outShape.getD i 0) (inShape.getD i 0)
            (view.windowStrides.getD i 0) = true) ∧
        m = (if idxs.any (fun i => !(view.paddings.getD i ⟨0, 0⟩).Trivial) then "SAME"
             else mode)) := by
  induction idxs generalizing mode with
  | nil =>
    rw [classifyPaddingGo]
    constructor
    · intro h
      injection h with h'
      exact ⟨(by intro j hj; cases hj), (by rw [List.any_nil, if_neg (by decide), h'])⟩
    · rintro ⟨-, hm⟩
      rw [List.any_nil, if_neg (by decide)] at hm
      rw [hm]
  | cons i rest ih =>
    unfold classifyPaddingGo
    cases ht : (view.paddings.getD i ⟨0, 0⟩).Trivial with
    | true =>
      rw [if_pos ht, ih]
      have hcond : ((i :: rest).any (fun j => !(view.paddings.getD j ⟨0, 0⟩).Trivial)) =
          (rest.any (fun j => !(view.paddings.getD j ⟨0, 0⟩).Trivial)) := by
        rw [List.any_cons, ht]
        rfl
      constructor
      · rintro ⟨hall, hm⟩
        refine ⟨?_, by rw [hm, hcond]⟩
        intro j hj
        rcases List.mem_cons.mp hj with rfl | hj'
        · intro hf
          rw [ht] at hf
          exact absurd hf (by decide)
        · exact hall j hj'
      · rintro ⟨hall, hm⟩
        exact ⟨fun j hj => hall j (List.mem_cons_of_mem _ hj), by rw [hm, hcond]⟩
    | false =>
      rw [if_neg (by simp only [ht]; decide)]
      cases hs : sp (view.paddings.getD i ⟨0, 0⟩) (outShape.getD i 0) (inShape.getD i 0)
          (view.windowStrides.getD i 0) with
      | true =>
        rw [if_pos rfl, ih]
        have hcond : ((i :: rest).any (fun j => !(view.paddings.getD j ⟨0, 0⟩).Trivial)) =
            true := by
          rw [List.any_cons, ht]
          rfl
        constructor
        · rintro ⟨hall, hm⟩
          refine ⟨?_, ?_⟩
          · intro j hj
            rcases List.mem_cons.mp hj with rfl | hj'
            · intro _; exact hs
            · exact hall j hj'
          · rw [hm, ite_self, hcond, if_pos rfl]
        · rintro ⟨hall, hm⟩
          refine ⟨fun j hj => hall j (List.mem_cons_of_mem _ hj), ?_⟩
          rw [hm, hcond, if_pos rfl, ite_self]
      | false =>
        rw [if_neg (by decide)]
        constructor
        · intro h
          exact Option.noConfusion h
        · rintro ⟨hall, -⟩
          have hc := hall i (List.mem_cons_self i rest) ht
          rw [hs] at hc
          exact absurd hc (by decide)

/-- Claim C5: padding is classified per spatial dimension independently: the
result is VALID iff every spatial dimension has trivial padding; it is SAME
iff every non-trivially padded spatial dimension satisfies the same-padding
relation and at least one spatial dimension is non-trivially padded; the match
fails iff some non-trivially padded spatial dimension violates the relation. -/
theorem claim_padding_classification (sp : DimPadding → Int → Int → Int → Bool)
    (view : ReduceWindowView) (inShape outShape : List Int) :
    (classifyPadding sp view inShape outShape = some "VALID" ↔
      (∀ i ∈ spatialIndices view.rank, (view.paddings.getD i ⟨0, 0⟩).Trivial = true)) ∧
    (classifyPadding sp view inShape outShape = some "SAME" ↔
      ((∀ i ∈ spatialIndices view.rank, (view.paddings.getD i ⟨0, 0⟩).Trivial = false →
          sp (view.paddings.getD i ⟨0, 0⟩) (outShape.getD i 0) (inShape.getD i 0)
            (view.windowStrides.getD i 0) = true) ∧
        (∃ i ∈ spatialIndices view.rank, (view.paddings.getD i ⟨0, 0⟩).Trivial = false))) ∧
    (classifyPadding sp view inShape outShape = none ↔
      (∃ i ∈ spatialIndices view.rank, (view.paddings.getD i ⟨0, 0⟩).Trivial = false ∧
        sp (view.paddings.getD i ⟨0, 0⟩) (outShape.getD i 0) (inShape.getD i 0)
          (view.windowStrides.getD i 0) = false)) := by
  refine ⟨?_, ?_, ?_⟩
  · rw [classifyPadding, classifyPaddingGo_eq_some_iff]
    constructor
    · rintro ⟨-, hm⟩
      intro i hi
      cases hb : (view.paddings.getD i ⟨0, 0⟩).Trivial with
      | true => rfl
      | false =>
        have hany : ((spatialIndices view.rank).any
            (fun j => !(view.paddings.getD j ⟨0, 0⟩).Trivial)) = true := by
          rw [List.any_eq_true]
          exact ⟨i, hi, by rw [hb]; rfl⟩
        rw [if_pos hany] at hm
        exact absurd hm (by decide)
    · intro hall
      have hany : ((spatialIndices view.rank).any
          (fun j => !(view.paddings.getD j ⟨0, 0⟩).Trivial)) = false := by
        rw [List.any_eq_false]
        intro j hj
        rw [hall j hj]
        decide
      refine ⟨?_, by rw [hany, if_neg (by decide)]⟩
      intro j hj hf
      rw [hall j hj] at hf
      exact absurd hf (by decide)
  · rw [classifyPadding, classifyPaddingGo_eq_some_iff]
    constructor
    · rintro ⟨hall, hm⟩
      refine ⟨hall, ?_⟩
      cases hany : ((spatialIndices view.rank).any
          (fun j => !(view.paddings.getD j ⟨0, 0⟩).Trivial)) with
      | false =>
        rw [if_neg (by rw [hany]; decide)] at hm
        exact absurd hm (by decide)
      | true =>
        rw [List.any_eq_true] at hany
        obtain ⟨j, hj, hjt⟩ := hany
        refine ⟨j, hj, ?_⟩
        cases hb : (view.paddings.getD j ⟨0, 0⟩).Trivial with
        | false => rfl
        | true => rw [hb] at hjt; exact absurd hjt (by decide)
    · rintro ⟨hall, j, hj, hjf⟩
      have hany : ((spatialIndices view.rank).any
          (fun j => !(view.paddings.getD j ⟨0, 0⟩).Trivial)) = true := by
        rw [List.any_eq_true]
        exact ⟨j, hj, by rw [hjf]; rfl⟩
      exact ⟨hall, by rw [if_pos hany]⟩
  · rw [classifyPadding, classifyPaddingGo_eq_none_iff]

/-- Witness for C5: the specification examples — input 8, output 8, stride 1,
window 3, padding (1,1) on both spatial dimensions classifies as SAME, and
all-trivial padding with output 3 classifies as VALID. -/
theorem claim_padding_classification_witness :
    classifyPadding IsSamePaddingOnDim viewSame [1, 8, 8, 1] [1, 8, 8, 1] = some "SAME" ∧
    classifyPadding IsSamePaddingOnDim viewValid [1, 8, 8, 1] [1, 3, 3, 1] = some "VALID" :=
  ⟨((claim_padding_classification IsSamePaddingOnDim viewSame
      [1, 8, 8, 1] [1, 8, 8, 1]).2.1).mpr (by decide),
    ((claim_padding_classification IsSamePaddingOnDim viewValid
      [1, 8, 8, 1] [1, 3, 3, 1]).1).mpr (by decide)⟩

/-! ### The relayout rewrite described explicitly (C7) -/

theorem pairUp_flatten (l : List Nat) (h : Nat → DimPadding) :
    pairUp ((l.map fun i => [(h i).lo, (h i).hi]).flatten) = l.map h := by
  induction l with
  | nil => rfl
  | cons i rest ih =>
    have hstep : (List.map (fun j => [(h j).lo, (h j).hi]) (i :: rest)).flatten
        = (h i).lo :: (h i).hi :: (List.map (fun j => [(h j).lo, (h j).hi]) rest).flatten := by
      simp
    rw [hstep, pairUp, ih, List.map_cons]

/-- Claim C7: a successful RelayoutReduceWindow rewrite produces exactly the
transpose (by perm_out) of a fresh reduce-window whose window dimensions and
strides are the originals permuted by perm_in, whose paddings are the original
(lo, hi) pairs moved as whole units by perm_in, whose input is the original
input transposed by perm_in, whose result shape is the original output shape
permuted to the target layout, and whose body is the original body copied
verbatim. -/
theorem claim_relayout_rewrite (gl : ReduceWindowView → Option Layout) (op : RWNode)
    (v : ReduceWindowView) (layout : Layout) (input initVal : Value)
    (hview : GetViewIfAttrsSupported gl op.view = some (v, layout))
    (hii : GetInputAndInitIfValid op.inputs op.initValues op.numResults = some (input, initVal))
    (hne : ¬(layout = TFLNativePoolingLayout (v.rank : Int))) :
    relayoutReduceWindow gl op =
      .rewritten
        (Value.transpose
          (Value.reduceWindow
            [Value.transpose input
              (layout.GetPermForReLayout (TFLNativePoolingLayout (v.rank : Int)))
              (transposeResultTy input.ty
                (layout.GetPermForReLayout (TFLNativePoolingLayout (v.rank : Int))))]
            [initVal] 1
            ⟨Permute v.windowDims
                (layout.GetPermForReLayout (TFLNativePoolingLayout (v.rank : Int))),
              Permute v.windowStrides
                (layout.GetPermForReLayout (TFLNativePoolingLayout (v.rank : Int))),
              v.baseDilations, v.windowDilations,
              (List.range v.paddings.length).map fun i =>
                v.paddings.getD
                  (((layout.GetPermForReLayout
                      (TFLNativePoolingLayout (v.rank : Int))).getD i 0).toNat) ⟨0, 0⟩⟩
            op.body
            ⟨layout.PermuteShape (TFLNativePoolingLayout (v.rank : Int)) op.ty.shape,
              op.ty.isFloat⟩)
          ((TFLNativePoolingLayout (v.rank : Int)).GetPermForReLayout layout)
          (transposeResultTy
            ⟨layout.PermuteShape (TFLNativePoolingLayout (v.rank : Int)) op.ty.shape,
              op.ty.isFloat⟩
            ((TFLNativePoolingLayout (v.rank : Int)).GetPermForReLayout layout))) := by
  unfold relayoutReduceWindow
  rw [hview]
  dsimp only
  rw [hii]
  dsimp only
  rw [if_neg hne]
  rw [pairUp_flatten (List.range v.paddings.length)
    (fun i =>
      v.paddings.getD
        (((layout.GetPermForReLayout (TFLNativePoolingLayout (v.rank : Int))).getD i 0).toNat)
        ⟨0, 0⟩)]

/-- Witness for C7: the NCHW fixture is rewritten. -/
theorem claim_relayout_rewrite_witness :
    ∃ x, relayoutReduceWindow guessLayoutNCHW rwNodeNCHW = .rewritten x :=
  ⟨_, claim_relayout_rewrite guessLayoutNCHW rwNodeNCHW viewNCHW layoutNCHW
    inputNCHW zeroCst rfl rfl (by decide)⟩

/-! ### Layout permutation algebra (C8) -/

theorem identityPerm_nodup (n : Nat) : (identityPerm n).Nodup :=
  List.Nodup.map (fun _ _ h => Int.ofNat.inj h) (List.nodup_range n)

theorem mem_identityPerm (n : Nat) (d : Int) :
    d ∈ identityPerm n ↔ 0 ≤ d ∧ d < (n : Int) := by
  rw [identityPerm]
  simp only [List.mem_map, List.mem_range, Int.ofNat_eq_coe]
  constructor
  · rintro ⟨k, hk, rfl⟩
    omega
  · rintro ⟨h0, hn⟩
    exact ⟨d.toNat, by omega, by omega⟩

theorem Layout.IsValid.nodup_dims {l : Layout} (h : l.IsValid) : l.dims.Nodup :=
  h.nodup_iff.mpr (identityPerm_nodup _)

theorem Layout.IsValid.mem_dims_iff {l : Layout} (h : l.IsValid) (d : Int) :
    d ∈ l.dims ↔ 0 ≤ d ∧ d < (l.rank : Int) := by
  rw [h.mem_iff]
  exact mem_identityPerm _ _

theorem Layout.IsValid.parts {l : Layout} (h : l.IsValid) :
    l.specialDim1 ≠ l.specialDim2 ∧ l.specialDim1 ∉ l.spatials ∧
      l.specialDim2 ∉ l.spatials ∧ l.spatials.Nodup := by
  have hnd := h.nodup_dims
  rw [Layout.dims, List.nodup_cons, List.nodup_cons] at hnd
  obtain ⟨h1, h2, h3⟩ := hnd
  rw [List.mem_cons] at h1
  push_neg at h1
  exact ⟨h1.1, h1.2, h2, h3⟩

theorem Layout.IsValid.bounds {l : Layout} (h : l.IsValid) {d : Int} (hd : d ∈ l.dims) :
    0 ≤ d ∧ d.toNat < l.rank := by
  have := (h.mem_dims_iff d).mp hd
  omega

theorem length_roleBuild (l : Layout) (n : Nat) (b c : Int) (ss : List Int) :
    (roleBuild l n b c ss).length = n := by
  rw [roleBuild]
  exact length_map_range _ _

theorem length_Permute (data perm : List Int) : (Permute data perm).length = data.length := by
  rw [Permute]
  exact length_map_range _ _

theorem Permute_getD (data perm : List Int) (i : Nat) (hi : i < data.length) :
    (Permute data perm).getD i 0 = data.getD ((perm.getD i 0).toNat) 0 := by
  rw [Permute, getD_map_range _ _ hi]

theorem list_eq_of_getD (l1 l2 : List Int) (hl : l1.length = l2.length)
    (h : ∀ i : Nat, i < l1.length → l1.getD i 0 = l2.getD i 0) : l1 = l2 := by
  apply List.ext_get hl
  intro i h1 h2
  have hiD := h i h1
  rw [List.getD_eq_getElem _ _ h1, List.getD_eq_getElem _ _ h2] at hiD
  simpa using hiD

theorem roleBuild_getD_sd1 (l : Layout) (n : Nat) (b c : Int) (ss : List Int)
    (h0 : 0 ≤ l.specialDim1) (hn : l.specialDim1.toNat < n) :
    (roleBuild l n b c ss).getD l.specialDim1.toNat 0 = b := by
  rw [roleBuild, getD_map_range _ _ hn, if_pos (by rw [Int.toNat_of_nonneg h0])]

theorem roleBuild_getD_sd2 (l : Layout) (n : Nat) (b c : Int) (ss : List Int)
    (h0 : 0 ≤ l.specialDim2) (hn : l.specialDim2.toNat < n)
    (hne : l.specialDim1 ≠ l.specialDim2) :
    (roleBuild l n b c ss).getD l.specialDim2.toNat 0 = c := by
  rw [roleBuild, getD_map_range _ _ hn,
    if_neg (by rw [Int.toNat_of_nonneg h0]; exact hne),
    if_pos (by rw [Int.toNat_of_nonneg h0])]

theorem roleBuild_getD_spatial (l : Layout) (n : Nat) (b c : Int) (ss : List Int)
    (k : Nat) (hk : k < l.spatials.length)
    (h0 : 0 ≤ l.spatials.get ⟨k, hk⟩) (hn : (l.spatials.get ⟨k, hk⟩).toNat < n)
    (h1 : l.specialDim1 ∉ l.spatials) (h2 : l.specialDim2 ∉ l.spatials)
    (hnd : l.spatials.Nodup) :
    (roleBuild l n b c ss).getD (l.spatials.get ⟨k, hk⟩).toNat 0 = ss.getD k 0 := by
  rw [roleBuild, getD_map_range _ _ hn]
  have he : ((l.spatials.get ⟨k, hk⟩).toNat : Int) = l.spatials.get ⟨k, hk⟩ :=
    Int.toNat_of_nonneg h0
  rw [if_neg (fun hc => h1 (by rw [hc, he]; exact List.get_mem _ _ _)),
      if_neg (fun hc => h2 (by rw [hc, he]; exact List.get_mem _ _ _)), he]
  congr 1
  simpa using List.indexOf_getElem hnd k hk

theorem perm_comp_eval (A B : Layout) (hA : A.IsValid) (hB : B.IsValid)
    (hrank : A.rank = B.rank) (i : Nat) (hi : i < A.rank) :
    (A.GetPermForReLayout B).getD ((B.GetPermForReLayout A).getD i 0).toNat 0 = (i : Int) := by
  obtain ⟨hneA, h1A, h2A, hndA⟩ := hA.parts
  obtain ⟨hneB, h1B, h2B, hndB⟩ := hB.parts
  have hcov : (i : Int) ∈ A.dims :=
    (hA.mem_dims_iff _).mpr ⟨by omega, by exact_mod_cast hi⟩
  rw [Layout.dims, List.mem_cons, List.mem_cons] at hcov
  rcases hcov with hc | hc | hc
  · have hb1A := hA.bounds (List.mem_cons_self _ _)
    have hb1B := hB.bounds (List.mem_cons_self _ _)
    have hi' : i = A.specialDim1.toNat := by omega
    subst hi'
    rw [Layout.GetPermForReLayout, Layout.GetPermForReLayout,
        roleBuild_getD_sd1 A B.rank _ _ _ hb1A.1 (by omega),
        roleBuild_getD_sd1 B A.rank _ _ _ hb1B.1 (by omega),
        Int.toNat_of_nonneg hb1A.1]
  · have hb2A := hA.bounds (List.mem_cons_of_mem _ (List.mem_cons_self _ _))
    have hb2B := hB.bounds (List.mem_cons_of_mem _ (List.mem_cons_self _ _))
    have hi' : i = A.specialDim2.toNat := by omega
    subst hi'
    rw [Layout.GetPermForReLayout, Layout.GetPermForReLayout,
        roleBuild_getD_sd2 A B.rank _ _ _ hb2A.1 (by omega) hneA,
        roleBuild_getD_sd2 B A.rank _ _ _ hb2B.1 (by omega) hneB,
        Int.toNat_of_nonneg hb2A.1]
  · obtain ⟨⟨k, hk⟩, hget⟩ := List.mem_iff_get.mp hc
    have hbe : 0 ≤ A.spatials.get ⟨k, hk⟩ ∧ (A.spatials.get ⟨k, hk⟩).toNat < A.rank :=
      hA.bounds (by
        rw [Layout.dims]
        exact List.mem_cons_of_mem _ (List.mem_cons_of_mem _ (List.get_mem _ _ _)))
    have hi' : i = (A.spatials.get ⟨k, hk⟩).toNat := by omega
    subst hi'
    have hlen : A.spatials.length = B.spatials.length := by
      have hr := hrank
      unfold Layout.rank at hr
      omega
    have hkB : k < B.spatials.length := by omega
    rw [Layout.GetPermForReLayout, Layout.GetPermForReLayout,
        roleBuild_getD_spatial A B.rank _ _ _ k hk hbe.1 (by omega) h1A h2A hndA]
    have hgB : B.spatials.getD k 0 = B.spatials.get ⟨k, hkB⟩ := by
      rw [List.getD_eq_getElem _ _ hkB]
      simp
    rw [hgB]
    have hbeB : 0 ≤ B.spatials.get ⟨k, hkB⟩ ∧ (B.spatials.get ⟨k, hkB⟩).toNat < B.rank :=
      hB.bounds (by
        rw [Layout.dims]
        exact List.mem_cons_of_mem _ (List.mem_cons_of_mem _ (List.get_mem _ _ _)))
    rw [roleBuild_getD_spatial B A.rank _ _ _ k hkB hbeB.1 (by omega) h1B h2B hndB]
    have hgA : A.spatials.getD k 0 = A.spatials.get ⟨k, hk⟩ := by
      rw [List.getD_eq_getElem _ _ hk]
      simp
    rw [hgA]
    exact hget

theorem perm_comp_identity (A B : Layout) (hA : A.IsValid) (hB : B.IsValid)
    (hrank : A.rank = B.rank) :
    Permute (A.GetPermForReLayout B) (B.GetPermForReLayout A) = identityPerm A.rank := by
  apply list_eq_of_getD
  · rw [length_Permute, Layout.GetPermForReLayout, length_roleBuild, identityPerm,
      length_map_range]
  · intro i hi
    rw [length_Permute, Layout.GetPermForReLayout, length_roleBuild] at hi
    rw [Permute_getD _ _ i (by rw [Layout.GetPermForReLayout, length_roleBuild]; exact hi),
      perm_comp_eval A B hA hB hrank i hi, identityPerm,
      getD_map_range _ _ hi, Int.ofNat_eq_coe]

theorem permuteShape_layoutShape (A B : Layout) (hA : A.IsValid) (hB : B.IsValid)
    (hrank : A.rank = B.rank) (bs cs : Int) (ss : List Int) :
    A.PermuteShape B (layoutShape A bs cs ss) = layoutShape B bs cs ss := by
  obtain ⟨hneA, h1A, h2A, hndA⟩ := hA.parts
  obtain ⟨hneB, h1B, h2B, hndB⟩ := hB.parts
  apply list_eq_of_getD
  · rw [Layout.PermuteShape, length_Permute, layoutShape, layoutShape,
      length_roleBuild, length_roleBuild, hrank]
  · intro i hi
    rw [Layout.PermuteShape, length_Permute, layoutShape, length_roleBuild] at hi
    rw [Layout.PermuteShape,
      Permute_getD _ _ i (by rw [layoutShape, length_roleBuild]; exact hi)]
    have hiB : i < B.rank := by omega
    have hcov : (i : Int) ∈ B.dims :=
      (hB.mem_dims_iff _).mpr ⟨by omega, by exact_mod_cast hiB⟩
    rw [Layout.dims, List.mem_cons, List.mem_cons] at hcov
    rcases hcov with hc | hc | hc
    · have hb1A := hA.bounds (List.mem_cons_self _ _)
      have hb1B := hB.bounds (List.mem_cons_self _ _)
      have hi' : i = B.specialDim1.toNat := by omega
      subst hi'
      rw [Layout.GetPermForReLayout,
        roleBuild_getD_sd1 B A.rank _ _ _ hb1B.1 (by omega),
        layoutShape, layoutShape,
        roleBuild_getD_sd1 A A.rank _ _ _ hb1A.1 (by omega),
        roleBuild_getD_sd1 B B.rank _ _ _ hb1B.1 (by omega)]
    · have hb2A := hA.bounds (List.mem_cons_of_mem _ (List.mem_cons_self _ _))
      have hb2B := hB.bounds (List.mem_cons_of_mem _ (List.mem_cons_self _ _))
      have hi' : i = B.specialDim2.toNat := by omega
      subst hi'
      rw [Layout.GetPermForReLayout,
        roleBuild_getD_sd2 B A.rank _ _ _ hb2B.1 (by omega) hneB,
        layoutShape, layoutShape,
        roleBuild_getD_sd2 A A.rank _ _ _ hb2A.1 (by omega) hneA,
        roleBuild_getD_sd2 B B.rank _ _ _ hb2B.1 (by omega) hneB]
    · obtain ⟨⟨k, hkB⟩, hget⟩ := List.mem_iff_get.mp hc
      have hbeB : 0 ≤ B.spatials.get ⟨k, hkB⟩ ∧ (B.spatials.get ⟨k, hkB⟩).toNat < B.rank :=
        hB.bounds (by
          rw [Layout.dims]
          exact List.mem_cons_of_mem _ (List.mem_cons_of_mem _ (List.get_mem _ _ _)))
      have hi' : i = (B.spatials.get ⟨k, hkB⟩).toNat := by omega
      subst hi'
      have hlen : A.spatials.length = B.spatials.length := by
        have hr := hrank
        unfold Layout.rank at hr
        omega
      have hkA : k < A.spatials.length := by omega
      rw [Layout.GetPermForReLayout,
        roleBuild_getD_spatial B A.rank _ _ _ k hkB hbeB.1 (by omega) h1B h2B hndB]
      have hgA : A.spatials.getD k 0 = A.spatials.get ⟨k, hkA⟩ := by
        rw [List.getD_eq_getElem _ _ hkA]
        simp
      rw [hgA]
      have hbeA : 0 ≤ A.spatials.get ⟨k, hkA⟩ ∧ (A.spatials.get ⟨k, hkA⟩).toNat < A.rank :=
        hA.bounds (by
          rw [Layout.dims]
          exact List.mem_cons_of_mem _ (List.mem_cons_of_mem _ (List.get_mem _ _ _)))
      rw [layoutShape, layoutShape,
        roleBuild_getD_spatial A A.rank _ _ _ k hkA hbeA.1 (by omega) h1A h2A hndA,
        roleBuild_getD_spatial B B.rank _ _ _ k hkB hbeB.1 (by omega) h1B h2B hndB]

/-- Claim C8: for any two valid layouts A and B of the same rank, the
permutation A.permutation_to(B) composed with B.permutation_to(A) is the
identity permutation, and applying A.permutation_to(B) (via permute_shape) to
a shape laid out as A yields the same logical shape laid out as B. -/
theorem claim_layout_perm_inverse (A B : Layout) (hA : A.IsValid) (hB : B.IsValid)
    (hrank : A.rank = B.rank) (bs cs : Int) (ss : List Int) :
    Permute (A.GetPermForReLayout B) (B.GetPermForReLayout A) = identityPerm A.rank ∧
    A.PermuteShape B (layoutShape A bs cs ss) = layoutShape B bs cs ss :=
  ⟨perm_comp_identity A B hA hB hrank,
    permuteShape_layoutShape A B hA hB hrank bs cs ss⟩

/-- Witness for C8: the NCHW and NHWC rank-4 layouts. -/
theorem claim_layout_perm_inverse_witness :
    Permute (layoutNCHW.GetPermForReLayout layoutNHWC)
        (layoutNHWC.GetPermForReLayout layoutNCHW) = identityPerm layoutNCHW.rank ∧
    layoutNCHW.PermuteShape layoutNHWC (layoutShape layoutNCHW 1 2 [8, 9]) =
      layoutShape layoutNHWC 1 2 [8, 9] :=
  claim_layout_perm_inverse layoutNCHW layoutNHWC (by decide) (by decide) rfl 1 2 [8, 9]

/-! ### The LegalizeAvgPool numerator stage (shared by C1, C2, C3) -/

theorem toI32_eq_self {x : Int} (h1 : -(2 ^ 31) ≤ x) (h2 : x < 2 ^ 31) : toI32 x = x := by
  unfold toI32
  omega

theorem legalizeAvgPool_lhs_stage (gl : ReduceWindowView → Option Layout)
    (sp : DimPadding → Int → Int → Int → Bool) (divOp : DivOp)
    (inputs inits : List Value) (numResults : Nat) (view : ReduceWindowView)
    (body : BodyKind) (outTy : TensorTy) (layout : Layout)
    (rwInput rwInit : Value) (mode : String)
    (hwalk : walkUpTranspose divOp.lhs = .reduceWindow inputs inits numResults view body outTy)
    (hfilter : GetViewIfAttrsSupported gl view = some (view, layout))
    (hlayout : layout = TFLNativePoolingLayout (layout.rank : Int))
    (hii : GetInputAndInitIfValid inputs inits numResults = some (rwInput, rwInit))
    (hbody : body = .add)
    (hfloat : outTy.isFloat = true)
    (hzero : IsCstFloatZero rwInit = true)
    (hpad : classifyPadding sp view rwInput.ty.shape outTy.shape = some mode) :
    legalizeAvgPool gl sp divOp =
      legalizeAvgPoolAfterLhs gl divOp (finalTposeOf divOp.lhs) rwInput view mode := by
  have hrank4 : view.rank = 4 := by
    have hch := (getView_eq_some_iff gl view view layout).mp hfilter
    have hr := hch.1
    unfold IsRankSupported at hr
    simpa using hr
  unfold legalizeAvgPool
  rw [hwalk]
  dsimp only
  rw [hfilter]
  dsimp only
  rw [if_neg (by omega)]
  rw [if_neg (not_ne_iff.mpr hlayout)]
  rw [hii]
  dsimp only
  rw [if_neg (by simp [MatchBinaryReduceFunctionAdd, hbody])]
  rw [if_neg (by simp [hfloat])]
  rw [if_neg (by simp [hzero])]
  rw [hpad]

/-- Claim C1: a division whose numerator (through transpose wrappers) is a
canonical-layout, filter-passing, rank-4 sum-reduce-window with float result,
zero init, valid input/init arity and trivial spatial padding, and whose
denominator (through broadcast/transpose wrappers) is a splat float constant
exactly equal to the window size, is rewritten to a single average-pool node
with filter = window dims 1 and 2, stride = window strides 1 and 2, and VALID
padding (re-wrapped by the saved outer transpose if the numerator had one). -/
theorem claim_avgpool_const_divisor (gl : ReduceWindowView → Option Layout)
    (sp : DimPadding → Int → Int → Int → Bool) (divOp : DivOp)
    (inputs inits : List Value) (numResults : Nat) (view : ReduceWindowView)
    (body : BodyKind) (outTy : TensorTy) (layout : Layout)
    (rwInput rwInit : Value) (data : FPConst) (cty : TensorTy)
    (hwalk : walkUpTranspose divOp.lhs = .reduceWindow inputs inits numResults view body outTy)
    (hfilter : GetViewIfAttrsSupported gl view = some (view, layout))
    (hlayout : layout = TFLNativePoolingLayout (layout.rank : Int))
    (hii : GetInputAndInitIfValid inputs inits numResults = some (rwInput, rwInit))
    (hbody : body = .add)
    (hfloat : outTy.isFloat = true)
    (hzero : IsCstFloatZero rwInit = true)
    (htriv1 : (view.paddings.getD 1 ⟨0, 0⟩).Trivial = true)
    (htriv2 : (view.paddings.getD 2 ⟨0, 0⟩).Trivial = true)
    (hconst : walkUpBroadcastTranspose divOp.rhs = .constant data cty)
    (hfp : data.isFP = true) (hsplat : data.isSplat = true)
    (hval : data.val = (view.windowSize : Rat))
    (hr1 : -(2 ^ 31) ≤ view.windowDims.getD 1 0 ∧ view.windowDims.getD 1 0 < 2 ^ 31)
    (hr2 : -(2 ^ 31) ≤ view.windowDims.getD 2 0 ∧ view.windowDims.getD 2 0 < 2 ^ 31)
    (hr3 : -(2 ^ 31) ≤ view.windowStrides.getD 1 0 ∧ view.windowStrides.getD 1 0 < 2 ^ 31)
    (hr4 : -(2 ^ 31) ≤ view.windowStrides.getD 2 0 ∧ view.windowStrides.getD 2 0 < 2 ^ 31) :
    legalizeAvgPool gl sp divOp =
      .replaced (withFinalTpose (finalTposeOf divOp.lhs)
        (Value.avgPool2D rwInput (view.windowDims.getD 1 0) (view.windowDims.getD 2 0)
          "VALID" (view.windowStrides.getD 1 0) (view.windowStrides.getD 2 0) "NONE"
          (avgPoolOutTy divOp (finalTposeOf divOp.lhs)))) := by
  have hrank4 : view.rank = 4 := by
    have hch := (getView_eq_some_iff gl view view layout).mp hfilter
    have hr := hch.1
    unfold IsRankSupported at hr
    simpa using hr
  have hsi : spatialIndices view.rank = [1, 2] := by
    rw [hrank4]
    decide
  have hmode : classifyPadding sp view rwInput.ty.shape outTy.shape = some "VALID" := by
    rw [classifyPadding, hsi]
    refine (classifyPaddingGo_eq_some_iff sp view _ _ [1, 2] "VALID" "VALID").mpr ⟨?_, ?_⟩
    · intro i hi hf
      rcases List.mem_cons.mp hi with rfl | hi2
      · rw [htriv1] at hf
        exact absurd hf (by decide)
      rcases List.mem_cons.mp hi2 with rfl | hi3
      · rw [htriv2] at hf
        exact absurd hf (by decide)
      · cases hi3
    · rw [List.any_cons, List.any_cons, List.any_nil, htriv1, htriv2]
      rfl
  rw [legalizeAvgPool_lhs_stage gl sp divOp inputs inits numResults view body outTy layout
    rwInput rwInit "VALID" hwalk hfilter hlayout hii hbody hfloat hzero hmode]
  unfold legalizeAvgPoolAfterLhs
  rw [hconst]
  dsimp only
  rw [if_pos hfp]
  rw [if_neg (by simp [hsplat])]
  rw [if_neg (by simp [hval])]
  rw [if_neg (by simp)]
  unfold ReplaceWithAvgPool
  rw [toI32_eq_self hr1.1 hr1.2, toI32_eq_self hr2.1 hr2.2,
    toI32_eq_self hr3.1 hr3.2, toI32_eq_self hr4.1 hr4.2]

/-- Witness for C1: the constant-divisor fixture — window [1,3,3,1], strides
[1,2,2,1], zero init, VALID padding, divided by the splat constant 9.0 —
fuses to an average pool with filter (3,3), stride (2,2), padding VALID. -/
theorem claim_avgpool_const_divisor_witness :
    legalizeAvgPool guessLayoutNHWC IsSamePaddingOnDim divC1 =
      .replaced (Value.avgPool2D inputValid 3 3 "VALID" 2 2 "NONE" ⟨[1, 3, 3, 1], true⟩) := by
  exact claim_avgpool_const_divisor guessLayoutNHWC IsSamePaddingOnDim divC1
    [inputValid] [zeroCst] 1 viewValid .add ⟨[1, 3, 3, 1], true⟩
    (TFLNativePoolingLayout 4) inputValid zeroCst ⟨true, true, 9, 1⟩ scalarF32
    rfl rfl (by decide) rfl rfl rfl (by decide) rfl rfl rfl rfl rfl (by decide)
    (by decide) (by decide) (by decide) (by decide)

/-! ### The LegalizeAvgPool denominator dispatch (shared by C2, C3) -/

theorem walkBRT_walkBT : ∀ v : Value,
    walkUpBroadcastReshapeTranspose (walkUpBroadcastTranspose v) =
      walkUpBroadcastReshapeTranspose v
  | .blockArg _ => rfl
  | .constant _ _ => rfl
  | .transpose o _ _ => by
    simp only [walkUpBroadcastTranspose, walkUpBroadcastReshapeTranspose]
    exact walkBRT_walkBT o
  | .broadcastInDim o _ => by
    simp only [walkUpBroadcastTranspose, walkUpBroadcastReshapeTranspose]
    exact walkBRT_walkBT o
  | .reshape _ _ => rfl
  | .reduceWindow _ _ _ _ _ _ => rfl
  | .div _ _ _ => rfl
  | .avgPool2D _ _ _ _ _ _ _ _ => rfl
  | .otherOp _ => rfl

theorem afterLhs_eq_case2 (gl : ReduceWindowView → Option Layout) (divOp : DivOp)
    (optT : Option (Value × List Int)) (rwInput : Value) (view : ReduceWindowView)
    (mode : String)
    (h : ∀ d t, walkUpBroadcastTranspose divOp.rhs = .constant d t → d.isFP = false) :
    legalizeAvgPoolAfterLhs gl divOp optT rwInput view mode =
      avgPoolCase2 gl divOp optT rwInput view mode := by
  unfold legalizeAvgPoolAfterLhs
  cases hbt : walkUpBroadcastTranspose divOp.rhs with
  | constant d t =>
    dsimp only
    rw [if_neg (by simp [h d t hbt])]
  | blockArg t => rfl
  | transpose o p t => rfl
  | broadcastInDim o t => rfl
  | reshape o t => rfl
  | reduceWindow a b c d e f => rfl
  | div a b c => rfl
  | avgPool2D a b c d e f g t => rfl
  | otherOp t => rfl

theorem not_const_of_walkBRT_rw (rhs : Value)
    (rInputs rInits : List Value) (rNum : Nat) (rView : ReduceWindowView)
    (rBody : BodyKind) (rTy : TensorTy)
    (hrhs : walkUpBroadcastReshapeTranspose rhs =
      .reduceWindow rInputs rInits rNum rView rBody rTy) :
    ∀ d t, ¬(walkUpBroadcastTranspose rhs = .constant d t) := by
  intro d t hc
  have h1 := walkBRT_walkBT rhs
  rw [hc, hrhs] at h1
  exact Value.noConfusion h1

theorem avgPoolCase2_success (gl : ReduceWindowView → Option Layout) (divOp : DivOp)
    (optT : Option (Value × List Int)) (rwInput : Value) (lhsView : ReduceWindowView)
    (mode : String)
    (rInputs rInits : List Value) (rNum : Nat) (rView : ReduceWindowView)
    (rBody : BodyKind) (rTy : TensorTy) (rLayout : Layout)
    (rrInput rrInit : Value) (d : FPConst) (dt : TensorTy)
    (hrhs : walkUpBroadcastReshapeTranspose divOp.rhs =
      .reduceWindow rInputs rInits rNum rView rBody rTy)
    (hrfilter : GetViewIfAttrsSupported gl rView = some (rView, rLayout))
    (hrlayout : rLayout = TFLNativePoolingLayout (rLayout.rank : Int))
    (hrbody : rBody = .add)
    (hrii : GetInputAndInitIfValid rInputs rInits rNum = some (rrInput, rrInit))
    (hrzero : IsCstFloatZero rrInit = true)
    (hones : walkUpBroadcastTranspose rrInput = .constant d dt)
    (hdfp : d.isFP = true) (hdsplat : d.isSplat = true) (hdval : d.val = 1)
    (hcfg : lhsView.windowDims = rView.windowDims ∧
      lhsView.windowStrides = rView.windowStrides ∧ lhsView.paddings = rView.paddings) :
    avgPoolCase2 gl divOp optT rwInput lhsView mode =
      .replaced (ReplaceWithAvgPool divOp rwInput lhsView mode optT) := by
  unfold avgPoolCase2
  rw [hrhs]
  dsimp only
  rw [hrfilter]
  dsimp only
  rw [if_neg (not_ne_iff.mpr hrlayout)]
  rw [if_neg (by simp [MatchBinaryReduceFunctionAdd, hrbody])]
  rw [hrii]
  dsimp only
  rw [if_neg (by simp [hrzero])]
  rw [hones]
  dsimp only
  rw [if_pos (by simp [hdfp, hdsplat, hdval])]
  rw [if_neg (by simp [hcfg.1, hcfg.2.1, hcfg.2.2])]

/-- Claim C2: with the same canonical sum-reduce-window numerator (padding per
spatial dimension trivial or same, classified to some mode), a denominator
that (through broadcast/reshape/transpose wrappers) is a second reduce-window
passing the filter in canonical layout, with an addition body, zero init, a
splat-1.0 float constant input (through broadcast/transpose wrappers), and
window dimensions, strides and paddings equal to the numerator's, is rewritten
to the same single average-pool node; both VALID and SAME modes are accepted. -/
theorem claim_avgpool_ones_window (gl : ReduceWindowView → Option Layout)
    (sp : DimPadding → Int → Int → Int → Bool) (divOp : DivOp)
    (inputs inits : List Value) (numResults : Nat) (view : ReduceWindowView)
    (body : BodyKind) (outTy : TensorTy) (layout : Layout)
    (rwInput rwInit : Value) (mode : String)
    (rInputs rInits : List Value) (rNum : Nat) (rView : ReduceWindowView)
    (rBody : BodyKind) (rTy : TensorTy) (rLayout : Layout)
    (rrInput rrInit : Value) (d : FPConst) (dt : TensorTy)
    (hwalk : walkUpTranspose divOp.lhs = .reduceWindow inputs inits numResults view body outTy)
    (hfilter : GetViewIfAttrsSupported gl view = some (view, layout))
    (hlayout : layout = TFLNativePoolingLayout (layout.rank : Int))
    (hii : GetInputAndInitIfValid inputs inits numResults = some (rwInput, rwInit))
    (hbody : body = .add)
    (hfloat : outTy.isFloat = true)
    (hzero : IsCstFloatZero rwInit = true)
    (hpad : classifyPadding sp view rwInput.ty.shape outTy.shape = some mode)
    (hrhs : walkUpBroadcastReshapeTranspose divOp.rhs =
      .reduceWindow rInputs rInits rNum rView rBody rTy)
    (hrfilter : GetViewIfAttrsSupported gl rView = some (rView, rLayout))
    (hrlayout : rLayout = TFLNativePoolingLayout (rLayout.rank : Int))
    (hrbody : rBody = .add)
    (hrii : GetInputAndInitIfValid rInputs rInits rNum = some (rrInput, rrInit))
    (hrzero : IsCstFloatZero rrInit = true)
    (hones : walkUpBroadcastTranspose rrInput = .constant d dt)
    (hdfp : d.isFP = true) (hdsplat : d.isSplat = true) (hdval : d.val = 1)
    (hcfg : view.windowDims = rView.windowDims ∧
      view.windowStrides = rView.windowStrides ∧ view.paddings = rView.paddings)
    (hr1 : -(2 ^ 31) ≤ view.windowDims.getD 1 0 ∧ view.windowDims.getD 1 0 < 2 ^ 31)
    (hr2 : -(2 ^ 31) ≤ view.windowDims.getD 2 0 ∧ view.windowDims.getD 2 0 < 2 ^ 31)
    (hr3 : -(2 ^ 31) ≤ view.windowStrides.getD 1 0 ∧ view.windowStrides.getD 1 0 < 2 ^ 31)
    (hr4 : -(2 ^ 31) ≤ view.windowStrides.getD 2 0 ∧ view.windowStrides.getD 2 0 < 2 ^ 31) :
    legalizeAvgPool gl sp divOp =
      .replaced (withFinalTpose (finalTposeOf divOp.lhs)
        (Value.avgPool2D rwInput (view.windowDims.getD 1 0) (view.windowDims.getD 2 0)
          mode (view.windowStrides.getD 1 0) (view.windowStrides.getD 2 0) "NONE"
          (avgPoolOutTy divOp (finalTposeOf divOp.lhs)))) := by
  rw [legalizeAvgPool_lhs_stage gl sp divOp inputs inits numResults view body outTy layout
    rwInput rwInit mode hwalk hfilter hlayout hii hbody hfloat hzero hpad]
  rw [afterLhs_eq_case2 gl divOp (finalTposeOf divOp.lhs) rwInput view mode
    (fun d' t' hc => absurd hc (not_const_of_walkBRT_rw divOp.rhs rInputs rInits rNum
      rView rBody rTy hrhs d' t'))]
  rw [avgPoolCase2_success gl divOp (finalTposeOf divOp.lhs) rwInput view mode
    rInputs rInits rNum rView rBody rTy rLayout rrInput rrInit d dt
    hrhs hrfilter hrlayout hrbody hrii hrzero hones hdfp hdsplat hdval hcfg]
  unfold ReplaceWithAvgPool
  rw [toI32_eq_self hr1.1 hr1.2, toI32_eq_self hr2.1 hr2.2,
    toI32_eq_self hr3.1 hr3.2, toI32_eq_self hr4.1 hr4.2]

/-- Witness for C2: the ones-window fixture — a SAME-padding 3x3 stride-1 sum
window divided by a second reduce-window with identical configuration over a
splat-1.0 input fuses to an average pool with SAME padding. -/
theorem claim_avgpool_ones_window_witness :
    legalizeAvgPool guessLayoutNHWC IsSamePaddingOnDim divC2 =
      .replaced (Value.avgPool2D inputValid 3 3 "SAME" 1 1 "NONE" ⟨[1, 8, 8, 1], true⟩) := by
  exact claim_avgpool_ones_window guessLayoutNHWC IsSamePaddingOnDim divC2
    [inputValid] [zeroCst] 1 viewSame .add ⟨[1, 8, 8, 1], true⟩
    (TFLNativePoolingLayout 4) inputValid zeroCst "SAME"
    [onesCst] [zeroCst] 1 viewSame .add ⟨[1, 8, 8, 1], true⟩
    (TFLNativePoolingLayout 4) onesCst zeroCst ⟨true, true, 1, 64⟩ ⟨[1, 8, 8, 1], true⟩
    rfl rfl (by decide) rfl rfl rfl (by decide) (by decide)
    rfl rfl (by decide) rfl rfl (by decide) rfl rfl rfl (by decide)
    ⟨rfl, rfl, rfl⟩ (by decide) (by decide) (by decide) (by decide)

/-! ### Denominator-case ordering (C3) -/

/-- Counterexample for C3 as stated: with a valid numerator and a denominator
that is a splat float constant 7.0 (not equal to the window size 9), the
pattern returns the case-1 value-mismatch failure without attempting the
ones-window case — the ones-window matcher itself would report its own
distinct structural failure on this denominator, so the two results differ,
showing case b is not attempted after case a's checks fail on a constant. -/
theorem claim_divisor_dispatch_counterexample :
    legalizeAvgPool guessLayoutNHWC IsSamePaddingOnDim divWrongCst =
      .noMatch "Rhs splat const is not equal to window size." ∧
    avgPoolCase2 guessLayoutNHWC divWrongCst none inputValid viewValid "VALID" =
      .noMatch "Rhs of div op is not a reduce window." :=
  ⟨rfl, rfl⟩

/-- Claim C3 (amended): once the numerator stage has matched, the ones-window
case decides the attempt whenever the walked denominator is not a float
constant (in particular the two divisor shapes are tried in order); and a
denominator whose broadcast/reshape/transpose-walked form is a reduce-window
is never a broadcast/transpose-walked constant, so failing the
constant-divisor checks never prevents a match via the ones-window shape.
When the walked denominator is a float constant that fails case a's checks,
the pattern fails without attempting case b (which could not match anyway). -/
theorem claim_divisor_dispatch_amended (gl : ReduceWindowView → Option Layout)
    (sp : DimPadding → Int → Int → Int → Bool) (divOp : DivOp)
    (inputs inits : List Value) (numResults : Nat) (view : ReduceWindowView)
    (body : BodyKind) (outTy : TensorTy) (layout : Layout)
    (rwInput rwInit : Value) (mode : String)
    (hwalk : walkUpTranspose divOp.lhs = .reduceWindow inputs inits numResults view body outTy)
    (hfilter : GetViewIfAttrsSupported gl view = some (view, layout))
    (hlayout : layout = TFLNativePoolingLayout (layout.rank : Int))
    (hii : GetInputAndInitIfValid inputs inits numResults = some (rwInput, rwInit))
    (hbody : body = .add)
    (hfloat : outTy.isFloat = true)
    (hzero : IsCstFloatZero rwInit = true)
    (hpad : classifyPadding sp view rwInput.ty.shape outTy.shape = some mode) :
    ((∀ d t, walkUpBroadcastTranspose divOp.rhs = .constant d t → d.isFP = false) →
      legalizeAvgPool gl sp divOp =
        avgPoolCase2 gl divOp (finalTposeOf divOp.lhs) rwInput view mode) ∧
    (∀ (rInputs rInits : List Value) (rNum : Nat) (rView : ReduceWindowView)
        (rBody : BodyKind) (rTy : TensorTy),
      walkUpBroadcastReshapeTranspose divOp.rhs =
        .reduceWindow rInputs rInits rNum rView rBody rTy →
      ∀ d t, ¬(walkUpBroadcastTranspose divOp.rhs = .constant d t)) := by
  constructor
  · intro h
    rw [legalizeAvgPool_lhs_stage gl sp divOp inputs inits numResults view body outTy layout
      rwInput rwInit mode hwalk hfilter hlayout hii hbody hfloat hzero hpad]
    exact afterLhs_eq_case2 gl divOp (finalTposeOf divOp.lhs) rwInput view mode h
  · intro rInputs rInits rNum rView rBody rTy hrhs
    exact not_const_of_walkBRT_rw divOp.rhs rInputs rInits rNum rView rBody rTy hrhs

/-- Witness for C3 (amended): on the ones-window fixture the pattern result
equals the ones-window matcher result. -/
theorem claim_divisor_dispatch_amended_witness :
    legalizeAvgPool guessLayoutNHWC IsSamePaddingOnDim divC2 =
      avgPoolCase2 guessLayoutNHWC divC2 none inputValid viewSame "SAME" :=
  (claim_divisor_dispatch_amended guessLayoutNHWC IsSamePaddingOnDim divC2
    [inputValid] [zeroCst] 1 viewSame .add ⟨[1, 8, 8, 1], true⟩
    (TFLNativePoolingLayout 4) inputValid zeroCst "SAME"
    rfl rfl (by decide) rfl rfl rfl (by decide) (by decide)).1
    (fun d t hc => Value.noConfusion hc)
